import Mathlib

/-!
Verification of the win_perf_counters repository: a shallow embedding of the
counter-path grammar, the counter-name sanitizer, the bounded buffer-growth
retry loop, configuration validation (Init), the resolver's wildcard-expansion
filtering, and the per-host gather pass, together with theorems settling the
frozen specification claims.

Go strings are modelled as lists of characters (`Str`), machine integers as
`Nat`/`Int` with explicit `% 2^32` where the source relies on `uint32`
arithmetic, fallible Go functions as `Except`, and the native PDH API as
injected response functions.  Numeric counter payloads (float64/int64) are
never inspected by any modelled code path, so they are abstracted as `Int`.
-/

namespace WinPerfCounters

/-- Go strings, modelled as lists of characters. -/
abbrev Str := List Char

/-- Go `strings.Contains s sub` (true on the empty substring). -/
def containsSub : Str → Str → Bool
  | [], sub => sub.isEmpty
  | c :: t, sub => sub.isPrefixOf (c :: t) || containsSub t sub

/-- The reserved empty-instance sentinel (kernel32.go, `emptyInstance`). -/
def emptyInstance : Str := "------".data

/-- The local-host alias used by `formatPath`. -/
def localhostStr : Str := "localhost".data

/-!
## Counter-name sanitization

kernel32.go: `sanitizedChars = strings.NewReplacer("/sec", "_persec",
"/Sec", "_persec", " ", "_", "%", "Percent", "\\", "")`.  The Go replacer
scans left to right and replaces the first matching pattern at each
position, without overlapping matches; none of the five patterns is a
prefix of another, so pattern order is immaterial.
-/

/-- `sanitizedChars.Replace` from kernel32.go. -/
def sanitizedReplace : Str → Str
  | [] => []
  | '/' :: 's' :: 'e' :: 'c' :: rest => "_persec".data ++ sanitizedReplace rest
  | '/' :: 'S' :: 'e' :: 'c' :: rest => "_persec".data ++ sanitizedReplace rest
  | ' ' :: rest => '_' :: sanitizedReplace rest
  | '%' :: rest => "Percent".data ++ sanitizedReplace rest
  | '\\' :: rest => sanitizedReplace rest
  | c :: rest => c :: sanitizedReplace rest

/-- The `counter` struct of kernel32.go.  The Go field `instance` is a Lean
keyword and is rendered `inst`; the native counter handle is an opaque
numeric token. -/
structure counter where
  counterPath : Str
  computer : Str
  objectName : Str
  counter : Str
  inst : Str
  measurement : Str
  includeTotal : Bool
  useRawValue : Bool
  counterHandle : Nat
deriving DecidableEq, Repr

/-- `newCounter` from the source (part_000): sanitizes the measurement name
(defaulting to "win_perf_counters") and the counter name, appending "_Raw"
for raw-value counters. -/
def newCounter (counterHandle : Nat) (counterPath computer objectName inst counterName measurement : Str)
    (includeTotal useRawValue : Bool) : counter :=
  let measurementName := sanitizedReplace measurement
  let measurementName := if measurementName = [] then "win_perf_counters".data else measurementName
  let newCounterName := sanitizedReplace counterName
  let newCounterName := if useRawValue then newCounterName ++ "_Raw".data else newCounterName
  { counterPath := counterPath, computer := computer, objectName := objectName,
    counter := newCounterName, inst := inst, measurement := measurementName,
    includeTotal := includeTotal, useRawValue := useRawValue, counterHandle := counterHandle }

/-!
## Path grammar

`extractCounterInfoFromCounterPath` scans the path from the end, tracking
parenthesis nesting, recording border indices in Go `int` variables
initialised to -1; we mirror them with `Int` fields.
-/

/-- The mutable index variables of `extractCounterInfoFromCounterPath`,
in source declaration order. -/
structure ScanState where
  leftComputerBorderIndex : Int
  rightObjectBorderIndex : Int
  leftObjectBorderIndex : Int
  leftCounterBorderIndex : Int
  rightInstanceBorderIndex : Int
  leftInstanceBorderIndex : Int
  bracketLevel : Int
deriving DecidableEq, Repr

/-- All border indices start at -1, bracket level at 0. -/
def initScan : ScanState := ⟨-1, -1, -1, -1, -1, -1, 0⟩

/-- One iteration of the scanning loop of `extractCounterInfoFromCounterPath`
at index `i` on character `c` (the Go `switch`). -/
def scanStep (s : ScanState) (i : Nat) (c : Char) : ScanState :=
  if c = '\\' then
    if s.bracketLevel = 0 then
      if s.leftCounterBorderIndex = -1 then { s with leftCounterBorderIndex := (i : Int) }
      else if s.leftObjectBorderIndex = -1 then { s with leftObjectBorderIndex := (i : Int) }
      else if s.leftComputerBorderIndex = -1 then { s with leftComputerBorderIndex := (i : Int) }
      else s
    else s
  else if c = '(' then
    let s1 := { s with bracketLevel := s.bracketLevel - 1 }
    if s1.leftInstanceBorderIndex = -1 ∧ s1.bracketLevel = 0 ∧
        s1.leftObjectBorderIndex = -1 ∧ s1.leftCounterBorderIndex > -1 then
      { s1 with leftInstanceBorderIndex := (i : Int), rightObjectBorderIndex := (i : Int) }
    else s1
  else if c = ')' then
    let s1 := if s.rightInstanceBorderIndex = -1 ∧ s.bracketLevel = 0 ∧
        s.leftCounterBorderIndex > -1 then { s with rightInstanceBorderIndex := (i : Int) } else s
    { s1 with bracketLevel := s1.bracketLevel + 1 }
  else s

/-- Run the scanning loop over `cs` right-to-left, `off` being the index of
the first character of `cs` in the whole path (the Go loop runs
`for i := len(path)-1; i >= 0; i--`). -/
def scanR : Str → Nat → ScanState → ScanState
  | [], _, s => s
  | c :: rest, off, s => scanStep (scanR rest (off + 1) s) off c

/-- Go slice expression `cs[a:b]` for the (non-negative) `Int` indices the
scanner produces. -/
def sliceI (cs : Str) (a b : Int) : Str := (cs.drop a.toNat).take (b - a).toNat

/-- `extractCounterInfoFromCounterPath` from part_000: returns
(computer, object, instance, counter) or a parse error. -/
def extractCounterInfoFromCounterPath (counterPath : Str) :
    Except Str (Str × Str × Str × Str) :=
  let s0 := scanR counterPath 0 initScan
  let s := if s0.rightObjectBorderIndex = -1 then
      { s0 with rightObjectBorderIndex := s0.leftCounterBorderIndex } else s0
  if s.rightObjectBorderIndex = -1 ∨ s.leftObjectBorderIndex = -1 then
    .error ("cannot parse object from: ".data ++ counterPath)
  else if s.leftComputerBorderIndex > -1 ∧
      (s.leftComputerBorderIndex ≠ 1 ∨ s.leftComputerBorderIndex = s.leftObjectBorderIndex - 1) then
    .error ("cannot parse computer from: ".data ++ counterPath)
  else
    let computer := if s.leftComputerBorderIndex > -1 then
        sliceI counterPath (s.leftComputerBorderIndex + 1) s.leftObjectBorderIndex else []
    if s.leftInstanceBorderIndex > -1 ∧ s.rightInstanceBorderIndex > -1 then
      .ok (computer,
        sliceI counterPath (s.leftObjectBorderIndex + 1) s.rightObjectBorderIndex,
        sliceI counterPath (s.leftInstanceBorderIndex + 1) s.rightInstanceBorderIndex,
        counterPath.drop (s.leftCounterBorderIndex + 1).toNat)
    else if (s.leftInstanceBorderIndex = -1 ∧ s.rightInstanceBorderIndex > -1) ∨
        (s.leftInstanceBorderIndex > -1 ∧ s.rightInstanceBorderIndex = -1) then
      .error ("cannot parse instance from: ".data ++ counterPath)
    else
      .ok (computer,
        sliceI counterPath (s.leftObjectBorderIndex + 1) s.rightObjectBorderIndex,
        [],
        counterPath.drop (s.leftCounterBorderIndex + 1).toNat)

/-- `formatPath` from part_000: `\object\counter` for the empty-instance
sentinel, `\object(instance)\counter` otherwise, prefixed with `\\computer`
when the computer is non-empty and not "localhost". -/
def formatPath (computer objectName inst counter : Str) : Str :=
  let path := if inst = emptyInstance then
      ['\\'] ++ objectName ++ ['\\'] ++ counter
    else
      ['\\'] ++ objectName ++ ['('] ++ inst ++ [')'] ++ ['\\'] ++ counter
  if computer ≠ [] ∧ computer ≠ localhostStr then ['\\', '\\'] ++ computer ++ path else path

/-!
## Bounded buffer-growth retry loop (performance_query.go)

`GetCounterPath`, `ExpandWildCardPath`, `GetFormattedCounterArrayDouble` and
`GetRawCounterArray` all run the identical loop

    for buflen := initialBufferSize; buflen <= m.maxBufferSize; buflen *= 2 {
        buf := make([]byte, buflen)
        size := buflen
        ret := nativeCall(..., &size, &buf[0])
        if ret == errorSuccess { return result }
        if size > buflen { buflen = size }
        if ret != pdhMoreData { return error(ret) }
    }
    return errBufferLimitReached

`buflen` and `size` are `uint32`, so the post-statement `buflen *= 2` wraps
modulo 2^32; `&buf[0]` panics in Go when `buflen` is 0.  The native call is
modelled as a per-attempt response; the successful payload is abstracted.
-/

/-- `initialBufferSize` from performance_query.go (1 kB). -/
def initialBufferSize : Nat := 1024

/-- 2^32, the modulus of Go `uint32` arithmetic. -/
def u32 : Nat := 4294967296

/-- One native response of a buffer-sized call: `errorSuccess`,
`pdhMoreData` with the written-back required size, or any other status code
with whatever size the call wrote back. -/
inductive PdhResp where
  | success
  | moreData (size : Nat)
  | failure (code : Nat) (size : Nat)
deriving DecidableEq, Repr

/-- Observable outcome of the retry loop.  `panicked` is the Go runtime
panic from `&buf[0]` on a zero-length buffer; `outOfFuel` marks that the
given step budget was exhausted without the loop exiting. -/
inductive LoopOutcome where
  | ok (buflen : Nat)
  | apiError (code : Nat)
  | bufferLimit
  | panicked
  | outOfFuel
deriving DecidableEq, Repr

/-- The retry loop, fuelled.  Returns the sizes of the buffers it allocated
(in order) together with the outcome.  `f` maps the attempt number to the
native response. -/
def bufLoop (f : Nat → PdhResp) (maxBuf : Nat) : Nat → Nat → Nat → List Nat × LoopOutcome
  | fuel, attempt, buflen =>
    if buflen > maxBuf then ([], .bufferLimit)
    else
      match fuel with
      | 0 => ([], .outOfFuel)
      | fuel + 1 =>
        if buflen = 0 then ([buflen], .panicked)
        else
          match f attempt with
          | .success => ([buflen], .ok buflen)
          | .moreData size =>
            let b1 := if size > buflen then size else buflen
            let r := bufLoop f maxBuf fuel (attempt + 1) (2 * b1 % u32)
            (buflen :: r.1, r.2)
          | .failure code size => ([buflen], .apiError code)

/-!
## Configuration and Init (kernel32.go)
-/

/-- The `perfObject` configuration block (field names as in the source). -/
structure perfObject where
  Sources : List Str
  ObjectName : Str
  Counters : List Str
  Instances : List Str
  Measurement : Str
  WarnOnMissing : Bool
  FailOnMissing : Bool
  IncludeTotal : Bool
  UseRawValues : Bool
deriving DecidableEq, Repr

/-- The configuration fields of the `WinPerfCounters` struct consumed by the
modelled code paths (`MaxBufferSize` is the Go `Size = int64`). -/
structure WinPerfCountersCfg where
  UseWildcardsExpansion : Bool
  LocalizeWildcardsExpansion : Bool
  MaxBufferSize : Int
  Object : List perfObject
deriving DecidableEq, Repr

/-- The wildcard scan of `Init`: `found` becomes true when any object name
or counter name contains `*` or `?`. -/
def foundWildcards (objects : List perfObject) : Bool :=
  objects.any fun o =>
    containsSub o.ObjectName ['*'] || containsSub o.ObjectName ['?'] ||
    o.Counters.any fun c => containsSub c ['*'] || containsSub c ['?']

/-- `Init` from kernel32.go: buffer-size validation followed by the wildcard
check for `UseWildcardsExpansion && !LocalizeWildcardsExpansion`. -/
def Init (m : WinPerfCountersCfg) : Except String Unit :=
  if m.MaxBufferSize < (initialBufferSize : Int) then
    .error s!"maximum buffer size should at least be {2 * initialBufferSize}"
  else if m.MaxBufferSize > (4294967295 : Int) then
    .error s!"maximum buffer size should be smaller than {(4294967295 : Nat)}"
  else if m.UseWildcardsExpansion ∧ ¬ m.LocalizeWildcardsExpansion then
    if foundWildcards m.Object then
      .error "wildcards can't be used with LocalizeWildcardsExpansion=false"
    else .ok ()
  else .ok ()

/-!
## Errors and the benign data-state set
-/

/-- The `pdhError` type of performance_query.go (the formatted message text
is a pure function of the code and is omitted). -/
structure pdhError where
  errorCode : Nat
deriving DecidableEq, Repr

/-- Errors flowing through collection: a PDH error, or any non-PDH error
(`errors.As` fails on the latter). -/
inductive GErr where
  | pdh (e : pdhError)
  | other (msg : Str)
deriving DecidableEq, Repr

/-- PDH status codes referenced by `isKnownCounterDataError`.  Modelled from
the spec: the constant declarations live in a pdh.go file that is not among
the sources; the values are those of the Windows PDH API, and no claim
depends on the exact numbers. -/
def pdhCstatusInvalidData : Nat := 0xC0000BBA
/-- PDH_NO_DATA. -/
def pdhNoData : Nat := 0x800007D5
/-- PDH_CALC_NEGATIVE_DENOMINATOR. -/
def pdhCalcNegativeDenominator : Nat := 0x800007D6
/-- PDH_CALC_NEGATIVE_VALUE. -/
def pdhCalcNegativeValue : Nat := 0x800007D8
/-- PDH_INVALID_DATA. -/
def pdhInvalidData : Nat := 0xC0000BC6
/-- PDH_CSTATUS_NO_INSTANCE. -/
def pdhCstatusNoInstance : Nat := 0x800007D1

/-- `isKnownCounterDataError` from part_000: true exactly for PDH errors
whose code is in the benign data-state set. -/
def isKnownCounterDataError : GErr → Bool
  | .pdh e =>
    e.errorCode = pdhInvalidData ∨ e.errorCode = pdhCalcNegativeDenominator ∨
    e.errorCode = pdhCalcNegativeValue ∨ e.errorCode = pdhCstatusInvalidData ∨
    e.errorCode = pdhCstatusNoInstance ∨ e.errorCode = pdhNoData
  | .other _ => false

/-!
## Per-host gathering (kernel32.go)
-/

/-- `counterValue` from performance_query.go; the numeric payload is
abstracted as `Int` since no modelled code inspects it. -/
structure counterValue where
  instanceName : Str
  value : Int
deriving DecidableEq, Repr

/-- `instanceGrouping` from kernel32.go. -/
structure instanceGrouping where
  name : Str
  inst : Str
  objectName : Str
deriving DecidableEq, Repr

/-- `fieldGrouping`: the Go map is modelled as an association list in first
insertion order (Go map iteration order is unspecified). -/
abbrev fieldGrouping := List (instanceGrouping × List (Str × Int))

/-- Insert-or-overwrite a field in a field map. -/
def setField : List (Str × Int) → Str → Int → List (Str × Int)
  | [], k, v => [(k, v)]
  | (k0, v0) :: rest, k, v =>
    if k0 = k then (k0, v) :: rest else (k0, v0) :: setField rest k v

/-- `addCounterMeasurement` from kernel32.go. -/
def addCounterMeasurement (metric : counter) (instanceName : Str) (value : Int)
    (collectFields : fieldGrouping) : fieldGrouping :=
  let key : instanceGrouping := ⟨metric.measurement, instanceName, metric.objectName⟩
  match collectFields.lookup key with
  | none => collectFields ++ [(key, [(sanitizedReplace metric.counter, value)])]
  | some fields =>
    collectFields.map fun e =>
      if e.1 = key then (e.1, setField fields (sanitizedReplace metric.counter) value) else e

/-- `shouldIncludeMetric` from kernel32.go. -/
def shouldIncludeMetric (metric : counter) (cValue : counterValue) : Bool :=
  if metric.includeTotal then true
  else if metric.inst = ['*'] && !(containsSub cValue.instanceName "_Total".data) then true
  else if metric.inst = cValue.instanceName then true
  else if metric.inst = emptyInstance then true
  else false

/-- The injected native read operations of one host's query, indexed by
counter handle: scalar raw/formatted reads (wildcard-expansion mode) and
array raw/formatted reads (non-expansion mode). -/
structure QueryReads where
  rawValue : Nat → Except GErr Int
  fmtValue : Nat → Except GErr Int
  rawArray : Nat → Except GErr (List counterValue)
  fmtArray : Nat → Except GErr (List counterValue)

/-- The per-counter loop body of `gatherComputerCounters` folded over the
counter list, threading the collected fields.  A benign read error skips the
counter; any other read error aborts the host's pass (the `fmt.Errorf`
wrapping of the propagated error carries no extra data and is dropped). -/
def gatherFrom (useWildcardsExpansion : Bool) (q : QueryReads) :
    List counter → fieldGrouping → Except GErr fieldGrouping
  | [], collectedFields => .ok collectedFields
  | metric :: rest, collectedFields =>
    if useWildcardsExpansion then
      match (if metric.useRawValue then q.rawValue metric.counterHandle
             else q.fmtValue metric.counterHandle) with
      | .error e =>
        if !isKnownCounterDataError e then .error e
        else gatherFrom useWildcardsExpansion q rest collectedFields
      | .ok value =>
        gatherFrom useWildcardsExpansion q rest
          (addCounterMeasurement metric metric.inst value collectedFields)
    else
      match (if metric.useRawValue then q.rawArray metric.counterHandle
             else q.fmtArray metric.counterHandle) with
      | .error e =>
        if !isKnownCounterDataError e then .error e
        else gatherFrom useWildcardsExpansion q rest collectedFields
      | .ok counterValues =>
        gatherFrom useWildcardsExpansion q rest
          (counterValues.foldl (fun acc cValue =>
            let cValue := if containsSub metric.inst ['#'] &&
                cValue.instanceName.isPrefixOf metric.inst then
                { cValue with instanceName := metric.inst } else cValue
            if shouldIncludeMetric metric cValue then
              addCounterMeasurement metric cValue.instanceName cValue.value acc
            else acc) collectedFields)

/-- One measurement record handed to the collect callback (the timestamp is
the host's sample time and carries no information the claims inspect). -/
structure Record where
  name : Str
  fields : List (Str × Int)
  tags : List (Str × Str)
deriving DecidableEq, Repr

/-- The emission loop at the end of `gatherComputerCounters`: one record per
group, tagged with objectname and, when non-empty, instance and source. -/
def emitRecords (hostTag : Str) (collectedFields : fieldGrouping) : List Record :=
  collectedFields.map fun e =>
    { name := e.1.name
      fields := e.2
      tags :=
        [("objectname".data, e.1.objectName)] ++
        (if e.1.inst.length > 0 then [("instance".data, e.1.inst)] else []) ++
        (if hostTag.length > 0 then [("source".data, hostTag)] else []) }

/-- `hostCountersInfo` (query handle and timestamp abstracted). -/
structure hostCountersInfo where
  computer : Str
  tag : Str
  counters : List counter
deriving Repr

/-- `gatherComputerCounters` from kernel32.go: read every counter of the
host, group, then emit one record per group. -/
def gatherComputerCounters (useWildcardsExpansion : Bool) (q : QueryReads)
    (hostCounterInfo : hostCountersInfo) : Except GErr (List Record) :=
  match gatherFrom useWildcardsExpansion q hostCounterInfo.counters [] with
  | .error e => .error e
  | .ok collectedFields => .ok (emitRecords hostCounterInfo.tag collectedFields)

/-- The sequential per-host sampling loop at the start of the tick: on each
host either `collectDataWithTime` (when requested and supported) or
`collectData`; the first failure aborts the whole tick. -/
def collectPhase (usePerfCounterTime : Bool) (isVistaOrNewer : Str → Bool)
    (collectData : Str → Except GErr Unit)
    (collectDataWithTime : Str → Except GErr Unit) :
    List hostCountersInfo → Except GErr Unit
  | [] => .ok ()
  | h :: rest =>
    match (if usePerfCounterTime ∧ isVistaOrNewer h.computer then
        collectDataWithTime h.computer else collectData h.computer) with
    | .error e => .error e
    | .ok _ => collectPhase usePerfCounterTime isVistaOrNewer collectData collectDataWithTime rest

/-- The sample phase of `Gather` (kernel32.go lines after the refresh
block, which runs only when the refresh interval has elapsed): first the
sequential collect loop per host, any failure aborting the whole tick; then
one gather pass per host whose error is checked and discarded, never
aborting the tick.  The per-host passes run in goroutines that share no
state, so they are modelled as a map. -/
def sampleTick (usePerfCounterTime : Bool) (useWildcardsExpansion : Bool)
    (isVistaOrNewer : Str → Bool)
    (collectData : Str → Except GErr Unit)
    (collectDataWithTime : Str → Except GErr Unit)
    (reads : Str → QueryReads)
    (hosts : List hostCountersInfo) :
    Except GErr (List (Str × Option (List Record))) :=
  match collectPhase usePerfCounterTime isVistaOrNewer collectData collectDataWithTime hosts with
  | .error e => .error e
  | .ok _ =>
    .ok (hosts.map fun h =>
      (h.computer,
        match gatherComputerCounters useWildcardsExpansion (reads h.computer) h with
        | .error _ => none
        | .ok records => some records))

/-!
## Resolver: the wildcard-expansion branch of `addItem` (kernel32.go)

In expansion mode `addItem` resolves the registered path, expands it, and
iterates over the expansion results, parsing each, building a counter entry
(under the localization policy), and appending it to the host's counter
list unless the `_Total`-suppression rule applies.  The native calls
(`addCounterToQuery`, `addEnglishCounterToQuery`, `getCounterPath`,
`expandWildCardPath`) only produce opaque handles or the expansion list,
which is injected; handles are abstracted as 0.  The Go loop mutates
`hostCounter.counters` in place, so on a parse error the entries appended
before the error remain registered; the model returns the appended entries
together with the optional error.
-/

/-- The per-path loop of `addItem`'s expansion branch, carrying the
already-appended entries. -/
def addItemLoop (localize : Bool) (origObjectName origCounterName origInstance measurement : Str)
    (includeTotal useRawValue : Bool) (acc : List counter) :
    List Str → List counter × Option Str
  | [] => (acc, none)
  | p :: rest =>
    match extractCounterInfoFromCounterPath p with
    | .error e => (acc, some e)
    | .ok (computer, objectName, inst, counterName) =>
      let newItem :=
        if !localize then
          let newInstance := if inst = [] then emptyInstance else inst
          newCounter 0 (formatPath computer origObjectName newInstance origCounterName)
            computer origObjectName inst origCounterName measurement includeTotal useRawValue
        else
          newCounter 0 p computer objectName inst counterName measurement includeTotal useRawValue
      if inst = "_Total".data ∧ origInstance = ['*'] ∧ includeTotal = false then
        addItemLoop localize origObjectName origCounterName origInstance measurement
          includeTotal useRawValue acc rest
      else
        addItemLoop localize origObjectName origCounterName origInstance measurement
          includeTotal useRawValue (acc ++ [newItem]) rest

/-- The expansion branch of `addItem`: parse the original path for the
configured (English) object/counter names, then process every expansion
result. -/
def addItemExpansion (localize : Bool) (origCounterPath origInstance measurement : Str)
    (includeTotal useRawValue : Bool) (expandedPaths : List Str) :
    List counter × Option Str :=
  match extractCounterInfoFromCounterPath origCounterPath with
  | .error e => ([], some e)
  | .ok (_, origObjectName, _, origCounterName) =>
    addItemLoop localize origObjectName origCounterName origInstance measurement
      includeTotal useRawValue [] expandedPaths

/-- The entry `addItemLoop` builds for one parsed expansion result. -/
def expansionItem (localize : Bool) (origObjectName origCounterName measurement : Str)
    (includeTotal useRawValue : Bool) (p : Str) : counter :=
  match extractCounterInfoFromCounterPath p with
  | .error _ => newCounter 0 p [] [] [] [] measurement includeTotal useRawValue
  | .ok (computer, objectName, inst, counterName) =>
    if !localize then
      let newInstance := if inst = [] then emptyInstance else inst
      newCounter 0 (formatPath computer origObjectName newInstance origCounterName)
        computer origObjectName inst origCounterName measurement includeTotal useRawValue
    else
      newCounter 0 p computer objectName inst counterName measurement includeTotal useRawValue

/-- The instance component an expansion result parses to (empty when the
path has no instance parenthetical or does not parse). -/
def pathInst (p : Str) : Str :=
  match extractCounterInfoFromCounterPath p with
  | .error _ => []
  | .ok (_, _, inst, _) => inst

/-!
## Helper lemmas
-/

/-- A string avoiding the grammar's reserved characters. -/
def noReserved (xs : Str) : Prop := ∀ c ∈ xs, c ≠ '\\' ∧ c ≠ '(' ∧ c ≠ ')'

instance : DecidablePred noReserved := fun xs => by unfold noReserved; infer_instance

theorem natCast_ne_negOne (n : Nat) : ¬((n : Int) = -1) := by omega

theorem natCast_gt_negOne (n : Nat) : (n : Int) > -1 := by omega

theorem isPrefixOf_length {l1 l2 : Str} (h : l1.isPrefixOf l2 = true) :
    l1.length ≤ l2.length := by
  induction l1 generalizing l2 with
  | nil => simp
  | cons a t ih =>
    cases l2 with
    | nil => simp [List.isPrefixOf] at h
    | cons b t2 =>
      simp only [List.isPrefixOf, Bool.and_eq_true] at h
      simpa using ih h.2

theorem containsSub_length {s sub : Str} (h : containsSub s sub = true) :
    sub.length ≤ s.length := by
  induction s with
  | nil =>
    simp only [containsSub, List.isEmpty_iff] at h
    simp [h]
  | cons c t ih =>
    simp only [containsSub, Bool.or_eq_true] at h
    rcases h with h | h
    · exact isPrefixOf_length h
    ·exact le_trans (ih h) (by simp)

theorem drop_append_len (xs ys : Str) (n : Nat) :
    (xs ++ ys).drop (xs.length + n) = ys.drop n := by
  induction xs with
  | nil => simp
  | cons a t ih => simpa [Nat.succ_add] using ih

/-!
## Claim C10: Init's buffer-size validation
-/

/-- Claim C10: `Init` rejects the buffer-size configuration exactly when
`MaxBufferSize` is below the initial buffer size (1024) or above 2^32 − 1;
a `MaxBufferSize` of exactly 1024 is accepted, and the error message for
too-small values names 2048 (twice the initial size) as the minimum. -/
theorem c10_init_buffer_size_check (m : WinPerfCountersCfg) :
    ((Init m = .error "maximum buffer size should at least be 2048" ∨
      Init m = .error "maximum buffer size should be smaller than 4294967295") ↔
      (m.MaxBufferSize < 1024 ∨ m.MaxBufferSize > 4294967295)) ∧
    (m.MaxBufferSize < 1024 →
      Init m = .error "maximum buffer size should at least be 2048") ∧
    (m.MaxBufferSize = 1024 → m.UseWildcardsExpansion = false → Init m = .ok ()) := by
  have hmsg1 : (s!"maximum buffer size should at least be {2 * initialBufferSize}" : String)
      = "maximum buffer size should at least be 2048" := by decide
  have hmsg2 : (s!"maximum buffer size should be smaller than {(4294967295 : Nat)}" : String)
      = "maximum buffer size should be smaller than 4294967295" := by decide
  refine ⟨?_, ?_, ?_⟩
  · unfold Init
    rw [hmsg1, hmsg2]
    split_ifs with h1 h2 h3 h4 <;>
      simp_all [initialBufferSize] <;> omega
  · intro h
    unfold Init
    rw [if_pos (by exact_mod_cast h)]
    rw [hmsg1]
  · intro h1 h2
    unfold Init
    rw [if_neg (by simp [h1, initialBufferSize]), if_neg (by simp [h1]),
      if_neg (by simp [h2])]

/-- Witness for C10 at concrete configurations. -/
theorem c10_witness :
    Init { UseWildcardsExpansion := false, LocalizeWildcardsExpansion := true,
           MaxBufferSize := 1000, Object := [] }
      = .error "maximum buffer size should at least be 2048" ∧
    Init { UseWildcardsExpansion := false, LocalizeWildcardsExpansion := true,
           MaxBufferSize := 1024, Object := [] } = .ok () :=
  ⟨(c10_init_buffer_size_check _).2.1 (by norm_num),
   (c10_init_buffer_size_check _).2.2 rfl rfl⟩

/-!
## Claim C5: wildcard fail-fast in Init
-/

/-- A configuration with wildcard expansion disabled whose object name
contains the wildcard `*`. -/
def c5CfgNoExpansion : WinPerfCountersCfg :=
  { UseWildcardsExpansion := false, LocalizeWildcardsExpansion := true,
    MaxBufferSize := 1048576,
    Object := [{ Sources := [], ObjectName := "net*".data, Counters := ["c?".data],
                 Instances := [], Measurement := [], WarnOnMissing := false,
                 FailOnMissing := false, IncludeTotal := false, UseRawValues := false }] }

/-- Counterexample to claim C5 as stated: with wildcard expansion disabled
and an `ObjectName` (and a counter) containing wildcard characters, `Init`
succeeds — the wildcard check only runs when `UseWildcardsExpansion` is
true and `LocalizeWildcardsExpansion` is false. -/
theorem c5_counterexample :
    foundWildcards c5CfgNoExpansion.Object = true ∧
    c5CfgNoExpansion.UseWildcardsExpansion = false ∧
    Init c5CfgNoExpansion = .ok () := by
  refine ⟨by decide, rfl, rfl⟩

/-- Claim C5 (amended): when wildcard expansion is enabled and localized
expansion is disabled, any configured object name or counter name
containing a wildcard character makes `Init` return an error (before any
per-host work — `Init` performs none: queries are created and counters
registered only later, by `parseConfig`/`addItem` during `Gather`). -/
theorem c5_wildcard_fail_fast (m : WinPerfCountersCfg)
    (hu : m.UseWildcardsExpansion = true) (hl : m.LocalizeWildcardsExpansion = false)
    (hlo : 1024 ≤ m.MaxBufferSize) (hhi : m.MaxBufferSize ≤ 4294967295)
    (hw : foundWildcards m.Object = true) :
    Init m = .error "wildcards can't be used with LocalizeWildcardsExpansion=false" := by
  unfold Init
  rw [if_neg (by simp [initialBufferSize]; omega), if_neg (by omega),
    if_pos (by simp [hu, hl]), if_pos hw]

/-- The C5 configuration with expansion enabled and localization disabled. -/
def c5CfgExpansion : WinPerfCountersCfg :=
  { UseWildcardsExpansion := true, LocalizeWildcardsExpansion := false,
    MaxBufferSize := 1048576, Object := c5CfgNoExpansion.Object }

/-- Witness for C5 (amended) at a concrete configuration. -/
theorem c5_witness :
    Init c5CfgExpansion
      = .error "wildcards can't be used with LocalizeWildcardsExpansion=false" :=
  c5_wildcard_fail_fast _ rfl rfl (by norm_num [c5CfgExpansion]) (by norm_num [c5CfgExpansion])
    (by decide)

/-!
## Claim C7: sanitization
-/

/-- The single-character rewriting performed by the sanitizer away from the
`/sec`-`/Sec` patterns. -/
def sanChar (c : Char) : Str :=
  if c = ' ' then ['_']
  else if c = '%' then "Percent".data
  else if c = '\\' then []
  else [c]

theorem sanitizedReplace_cons {c : Char} (l : Str) (h : c ≠ '/') :
    sanitizedReplace (c :: l) = sanChar c ++ sanitizedReplace l := by
  rw [sanitizedReplace.eq_def]
  split
  · simp_all
  · simp_all
  · simp_all
  · rename_i heq
    rw [List.cons.injEq] at heq
    rw [heq.1, heq.2]
    simp [sanChar]
  · rename_i heq
    rw [List.cons.injEq] at heq
    rw [heq.1, heq.2]
    simp [sanChar]
  · rename_i heq
    rw [List.cons.injEq] at heq
    rw [heq.1, heq.2]
    simp [sanChar]
  · rename_i hn1 hn2 hn3 hn4 hn5 heq
    rw [List.cons.injEq] at heq
    rw [heq.1, heq.2]
    show _ = sanChar _ ++ _
    rw [sanChar, if_neg hn3, if_neg hn4, if_neg hn5]
    rfl

theorem sanitizedReplace_flat {xs : Str} (h : '/' ∉ xs) :
    sanitizedReplace xs = (xs.map sanChar).join := by
  induction xs with
  | nil => rfl
  | cons c t ih =>
    have hc : c ≠ '/' := fun hc => h (by rw [hc]; exact List.mem_cons_self _ _)
    rw [sanitizedReplace_cons t hc, ih (fun hm => h (List.mem_cons_of_mem _ hm))]
    simp

theorem sanitizedReplace_persec {xs : Str} (h : '/' ∉ xs) :
    sanitizedReplace (xs ++ "/sec".data) = sanitizedReplace xs ++ "_persec".data := by
  induction xs with
  | nil => rfl
  | cons c t ih =>
    have hc : c ≠ '/' := fun hc => h (by rw [hc]; exact List.mem_cons_self _ _)
    rw [List.cons_append, sanitizedReplace_cons _ hc, sanitizedReplace_cons t hc,
      ih (fun hm => h (List.mem_cons_of_mem _ hm)), List.append_assoc]

theorem sanitizedReplace_perSec {xs : Str} (h : '/' ∉ xs) :
    sanitizedReplace (xs ++ "/Sec".data) = sanitizedReplace xs ++ "_persec".data := by
  induction xs with
  | nil => rfl
  | cons c t ih =>
    have hc : c ≠ '/' := fun hc => h (by rw [hc]; exact List.mem_cons_self _ _)
    rw [List.cons_append, sanitizedReplace_cons _ hc, sanitizedReplace_cons t hc,
      ih (fun hm => h (List.mem_cons_of_mem _ hm)), List.append_assoc]

/-- Claim C7: the sanitizer maps "% Processor Time" to
"Percent_Processor_Time" and "Disk Read Bytes/sec" to
"Disk_Read_Bytes_persec"; in general the per-second suffixes "/sec" and
"/Sec" are rewritten to "_persec", '%' becomes "Percent", spaces become
underscores, backslashes are stripped, and a raw-value counter's sanitized
field name additionally receives a "_Raw" suffix. -/
theorem c7_sanitization :
    sanitizedReplace "% Processor Time".data = "Percent_Processor_Time".data ∧
    sanitizedReplace "Disk Read Bytes/sec".data = "Disk_Read_Bytes_persec".data ∧
    (∀ xs : Str, '/' ∉ xs →
      sanitizedReplace (xs ++ "/sec".data) = sanitizedReplace xs ++ "_persec".data) ∧
    (∀ xs : Str, '/' ∉ xs →
      sanitizedReplace (xs ++ "/Sec".data) = sanitizedReplace xs ++ "_persec".data) ∧
    (∀ xs : Str, '/' ∉ xs → sanitizedReplace xs = (xs.map sanChar).join) ∧
    (∀ (cp comp obj inst cn meas : Str) (it : Bool),
      (newCounter 0 cp comp obj inst cn meas it true).counter
        = sanitizedReplace cn ++ "_Raw".data) :=
  ⟨by decide, by decide,
   fun _ h => sanitizedReplace_persec h,
   fun _ h => sanitizedReplace_perSec h,
   fun _ h => sanitizedReplace_flat h,
   fun _ _ _ _ _ _ _ => rfl⟩

/-- Witness for C7's universally quantified parts at concrete inputs. -/
theorem c7_witness :
    sanitizedReplace ("Bytes Received".data ++ "/sec".data)
      = sanitizedReplace "Bytes Received".data ++ "_persec".data ∧
    (newCounter 0 [] [] [] [] "Errors".data [] false true).counter
      = sanitizedReplace "Errors".data ++ "_Raw".data :=
  ⟨c7_sanitization.2.2.1 "Bytes Received".data (by decide),
   c7_sanitization.2.2.2.2.2 [] [] [] [] "Errors".data [] false⟩

/-!
## Claim C9: substring semantics of the non-expansion inclusion filter
-/

/-- A concrete counter with the all-instances pattern and includeTotal
off, for the C9 instances. -/
def c9Metric : counter :=
  { counterPath := [], computer := [], objectName := "Service".data,
    counter := "Calls".data, inst := ['*'], measurement := "m".data,
    includeTotal := false, useRawValue := false, counterHandle := 0 }

/-- Claim C9: with includeTotal false and pattern "*", the inclusion filter
drops any array entry whose instance name contains "_Total" anywhere as a
substring (so "svc_Total_1" is dropped along with the exact "_Total"),
while an entry whose instance name exactly equals the configured instance
string is always included. -/
theorem c9_total_substring_filter :
    (∀ (metric : counter) (cv : counterValue),
      metric.includeTotal = false → metric.inst = ['*'] →
      containsSub cv.instanceName "_Total".data = true →
      shouldIncludeMetric metric cv = false) ∧
    (∀ (metric : counter) (cv : counterValue),
      metric.inst = cv.instanceName → shouldIncludeMetric metric cv = true) ∧
    shouldIncludeMetric c9Metric ⟨"svc_Total_1".data, 0⟩ = false ∧
    shouldIncludeMetric c9Metric ⟨"_Total".data, 0⟩ = false := by
  refine ⟨?_, ?_, by decide, by decide⟩
  · intro metric cv hit hstar hsub
    have hlen : ("_Total".data).length ≤ cv.instanceName.length := containsSub_length hsub
    have hne1 : ¬(metric.inst = cv.instanceName) := by
      rw [hstar]
      intro he
      rw [← he] at hlen
      simp at hlen
    have hne2 : ¬(metric.inst = emptyInstance) := by
      rw [hstar]
      decide
    rw [shouldIncludeMetric, if_neg (by simp [hit]), if_neg (by simp [hsub]),
      if_neg hne1, if_neg hne2]
  · intro metric cv he
    rw [shouldIncludeMetric]
    split_ifs with h1 h2 <;> simp_all

/-- Witness for C9's quantified parts at concrete inputs. -/
theorem c9_witness :
    shouldIncludeMetric c9Metric ⟨"a_Total_b".data, 7⟩ = false ∧
    shouldIncludeMetric { c9Metric with inst := "web".data } ⟨"web".data, 7⟩ = true :=
  ⟨c9_total_substring_filter.1 c9Metric ⟨"a_Total_b".data, 7⟩ rfl rfl (by decide),
   c9_total_substring_filter.2.1 _ ⟨"web".data, 7⟩ rfl⟩

/-!
## Claim C6: `_Total` suppression under the all-instances pattern
-/

/-- Whether an `Except` value is a success. -/
def exOk : Except Str (Str × Str × Str × Str) → Bool
  | .ok _ => true
  | .error _ => false

theorem addItemLoop_star (localize : Bool) (oON oCN meas : Str) (it useRaw : Bool)
    (acc : List counter) (paths : List Str)
    (hp : ∀ p ∈ paths, exOk (extractCounterInfoFromCounterPath p) = true) :
    addItemLoop localize oON oCN ['*'] meas it useRaw acc paths =
      (acc ++ (paths.filter fun p => !(pathInst p = "_Total".data ∧ it = false)).map
        (expansionItem localize oON oCN meas it useRaw), none) := by
  induction paths generalizing acc with
  | nil => simp [addItemLoop]
  | cons p rest ih =>
    have hpp := hp p (List.mem_cons_self _ _)
    have hrest : ∀ q ∈ rest, exOk (extractCounterInfoFromCounterPath q) = true :=
      fun q hq => hp q (List.mem_cons_of_mem _ hq)
    cases hex : extractCounterInfoFromCounterPath p with
    | error e => rw [hex] at hpp; simp [exOk] at hpp
    | ok quad =>
      obtain ⟨computer, objectName, inst, counterName⟩ := quad
      have hpi : pathInst p = inst := by rw [pathInst, hex]
      have hitem : expansionItem localize oON oCN meas it useRaw p =
          (if !localize then
            newCounter 0 (formatPath computer oON (if inst = [] then emptyInstance else inst) oCN)
              computer oON inst oCN meas it useRaw
          else newCounter 0 p computer objectName inst counterName meas it useRaw) := by
        rw [expansionItem, hex]
      rw [addItemLoop, hex]
      dsimp only
      by_cases hC : inst = "_Total".data ∧ it = false
      · rw [if_pos ⟨hC.1, rfl, hC.2⟩, ih acc hrest]
        simp [List.filter_cons, hpi, hC.1, hC.2]
      · rw [if_neg (fun hcon => hC ⟨hcon.1, hcon.2.2⟩), ih _ hrest]
        have hcond : (¬inst = ['_', 'T', 'o', 't', 'a', 'l'] ∨ it = true) := by
          by_cases h1 : inst = ['_', 'T', 'o', 't', 'a', 'l'] <;>
            [skip; exact Or.inl h1]
          cases it with
          | true => exact Or.inr rfl
          | false => exact absurd ⟨h1, rfl⟩ hC
        simp only [List.filter_cons, hpi, hitem]
        simp [hcond]
        cases localize <;> simp [hitem]

/-- Claim C6: in expansion mode with instance pattern "*", every expansion
result whose instance parses to "_Total" is excluded from the registered
counter set when includeTotal is false, and included when includeTotal is
true; in non-expansion mode the inclusion filter emits a "_Total" array
entry under pattern "*" exactly when includeTotal is set. -/
theorem c6_total_suppression :
    (∀ (localize : Bool) (origPath oc oON oi oCN meas : Str) (useRaw : Bool)
      (paths : List Str),
      extractCounterInfoFromCounterPath origPath = .ok (oc, oON, oi, oCN) →
      (∀ p ∈ paths, exOk (extractCounterInfoFromCounterPath p) = true) →
      addItemExpansion localize origPath ['*'] meas false useRaw paths
        = ((paths.filter fun p => !(pathInst p = "_Total".data)).map
            (expansionItem localize oON oCN meas false useRaw), none)) ∧
    (∀ (localize : Bool) (origPath oc oON oi oCN meas : Str) (useRaw : Bool)
      (paths : List Str),
      extractCounterInfoFromCounterPath origPath = .ok (oc, oON, oi, oCN) →
      (∀ p ∈ paths, exOk (extractCounterInfoFromCounterPath p) = true) →
      addItemExpansion localize origPath ['*'] meas true useRaw paths
        = (paths.map (expansionItem localize oON oCN meas true useRaw), none)) ∧
    (∀ (metric : counter) (cv : counterValue),
      metric.inst = ['*'] → cv.instanceName = "_Total".data →
      shouldIncludeMetric metric cv = metric.includeTotal) := by
  refine ⟨?_, ?_, ?_⟩
  · intro localize origPath oc oON oi oCN meas useRaw paths hex hp
    rw [addItemExpansion, hex]
    dsimp only
    rw [addItemLoop_star localize oON oCN meas false useRaw [] paths hp]
    have hfil : (fun p => !decide (pathInst p = "_Total".data ∧ false = false))
        = fun p => !decide (pathInst p = "_Total".data) := by
      funext q; simp
    rw [List.nil_append, hfil]
  · intro localize origPath oc oON oi oCN meas useRaw paths hex hp
    rw [addItemExpansion, hex]
    dsimp only
    rw [addItemLoop_star localize oON oCN meas true useRaw [] paths hp]
    have hfil : ∀ l : List Str,
        (l.filter fun p => !decide (pathInst p = "_Total".data ∧ true = false)) = l := by
      intro l; simp
    rw [List.nil_append, hfil]
  · intro metric cv hstar hcv
    cases hit : metric.includeTotal with
    | true => simp [shouldIncludeMetric, hit]
    | false =>
      rw [shouldIncludeMetric, if_neg (by simp [hit]),
        if_neg (by simp [hstar, hcv] <;> decide), if_neg (by simp [hstar, hcv] <;> decide),
        if_neg (by simp [hstar] <;> decide)]

/-- Witness for C6 at a concrete expansion: pattern "*", includeTotal
false, expansion results `_Total` and `a`. -/
theorem c6_witness :
    addItemExpansion true "\\O(*)\\C".data ['*'] "m".data false false
        ["\\O(_Total)\\C".data, "\\O(a)\\C".data]
      = ((["\\O(_Total)\\C".data, "\\O(a)\\C".data].filter
            fun p => !(pathInst p = "_Total".data)).map
          (expansionItem true "O".data "C".data "m".data false false), none) :=
  c6_total_suppression.1 true "\\O(*)\\C".data [] "O".data ['*'] "C".data "m".data false
    ["\\O(_Total)\\C".data, "\\O(a)\\C".data] rfl (by decide)

/-!
## Claim C8: benign per-counter read errors are skipped, others abort the host
-/

/-- The error (if any) produced by reading one counter in the given mode. -/
def readErrOf (uwe : Bool) (q : QueryReads) (c : counter) : Option GErr :=
  if uwe then
    match (if c.useRawValue then q.rawValue c.counterHandle else q.fmtValue c.counterHandle) with
    | .error e => some e
    | .ok _ => none
  else
    match (if c.useRawValue then q.rawArray c.counterHandle else q.fmtArray c.counterHandle) with
    | .error e => some e
    | .ok _ => none

/-- The field-map update a successful read of one counter performs. -/
def stepFields (uwe : Bool) (q : QueryReads) (c : counter) (fields : fieldGrouping) :
    fieldGrouping :=
  if uwe then
    match (if c.useRawValue then q.rawValue c.counterHandle else q.fmtValue c.counterHandle) with
    | .error _ => fields
    | .ok value => addCounterMeasurement c c.inst value fields
  else
    match (if c.useRawValue then q.rawArray c.counterHandle else q.fmtArray c.counterHandle) with
    | .error _ => fields
    | .ok counterValues =>
      counterValues.foldl (fun acc cValue =>
        let cValue := if containsSub c.inst ['#'] &&
            cValue.instanceName.isPrefixOf c.inst then
            { cValue with instanceName := c.inst } else cValue
        if shouldIncludeMetric c cValue then
          addCounterMeasurement c cValue.instanceName cValue.value acc
        else acc) fields

theorem gatherFrom_cons_err (uwe : Bool) (q : QueryReads) (c : counter) (cs : List counter)
    (fields : fieldGrouping) (e : GErr) (he : readErrOf uwe q c = some e) :
    gatherFrom uwe q (c :: cs) fields =
      if !isKnownCounterDataError e then .error e else gatherFrom uwe q cs fields := by
  cases uwe with
  | true =>
    rw [readErrOf, if_pos rfl] at he
    rw [gatherFrom, if_pos rfl]
    cases hres : (if c.useRawValue then q.rawValue c.counterHandle
        else q.fmtValue c.counterHandle) with
    | ok v => rw [hres] at he; exact absurd he (by simp)
    | error e2 =>
      rw [hres] at he
      injection he with he2
      subst he2
      rfl
  | false =>
    rw [readErrOf, if_neg (show ¬(false = true) by simp)] at he
    rw [gatherFrom, if_neg (show ¬(false = true) by simp)]
    cases hres : (if c.useRawValue then q.rawArray c.counterHandle
        else q.fmtArray c.counterHandle) with
    | ok v => rw [hres] at he; exact absurd he (by simp)
    | error e2 =>
      rw [hres] at he
      injection he with he2
      subst he2
      rfl

theorem gatherFrom_cons_ok (uwe : Bool) (q : QueryReads) (c : counter) (cs : List counter)
    (fields : fieldGrouping) (he : readErrOf uwe q c = none) :
    gatherFrom uwe q (c :: cs) fields = gatherFrom uwe q cs (stepFields uwe q c fields) := by
  cases uwe with
  | true =>
    rw [readErrOf, if_pos rfl] at he
    rw [gatherFrom, if_pos rfl, stepFields, if_pos rfl]
    cases hres : (if c.useRawValue then q.rawValue c.counterHandle
        else q.fmtValue c.counterHandle) with
    | ok v => rfl
    | error e2 => rw [hres] at he; exact absurd he (by simp)
  | false =>
    rw [readErrOf, if_neg (show ¬(false = true) by simp)] at he
    rw [gatherFrom, if_neg (show ¬(false = true) by simp), stepFields,
      if_neg (show ¬(false = true) by simp)]
    cases hres : (if c.useRawValue then q.rawArray c.counterHandle
        else q.fmtArray c.counterHandle) with
    | ok v => rfl
    | error e2 => rw [hres] at he; exact absurd he (by simp)

theorem gatherFrom_benign (uwe : Bool) (q : QueryReads) (c : counter) (e : GErr)
    (he : readErrOf uwe q c = some e) (hb : isKnownCounterDataError e = true)
    (cs1 cs2 : List counter) :
    ∀ fields, gatherFrom uwe q (cs1 ++ c :: cs2) fields
      = gatherFrom uwe q (cs1 ++ cs2) fields := by
  induction cs1 with
  | nil =>
    intro fields
    rw [List.nil_append, List.nil_append, gatherFrom_cons_err uwe q c cs2 fields e he,
      hb]
    simp
  | cons c2 t ih =>
    intro fields
    rw [List.cons_append, List.cons_append]
    cases he2 : readErrOf uwe q c2 with
    | none =>
      rw [gatherFrom_cons_ok uwe q c2 _ fields he2, gatherFrom_cons_ok uwe q c2 _ fields he2]
      exact ih _
    | some e2 =>
      rw [gatherFrom_cons_err uwe q c2 _ fields e2 he2,
        gatherFrom_cons_err uwe q c2 _ fields e2 he2]
      cases hk : isKnownCounterDataError e2 with
      | false => simp
      | true => simpa using ih fields

theorem gatherFrom_abort (uwe : Bool) (q : QueryReads) (c : counter) (e : GErr)
    (he : readErrOf uwe q c = some e) (hnb : isKnownCounterDataError e = false)
    (cs2 : List counter) :
    ∀ cs1, (∀ c2 ∈ cs1, readErrOf uwe q c2 = none) →
      ∀ fields, gatherFrom uwe q (cs1 ++ c :: cs2) fields = .error e := by
  intro cs1
  induction cs1 with
  | nil =>
    intro _ fields
    rw [List.nil_append, gatherFrom_cons_err uwe q c cs2 fields e he, hnb]
    simp
  | cons c2 t ih =>
    intro hok fields
    rw [List.cons_append,
      gatherFrom_cons_ok uwe q c2 _ fields (hok c2 (List.mem_cons_self _ _))]
    exact ih (fun x hx => hok x (List.mem_cons_of_mem _ hx)) _

/-- Claim C8: during one host's pass, a counter read failing with an error
in the benign data-state set (invalid data, negative denominator, negative
value, invalid-status, no-instance, no-data) is skipped — the pass produces
exactly the records of the remaining counters — while a read error outside
the set (including any non-PDH error) aborts that host's pass. -/
theorem c8_benign_read_errors :
    (∀ (uwe : Bool) (q : QueryReads) (host : hostCountersInfo)
      (c : counter) (cs1 cs2 : List counter) (e : GErr),
      host.counters = cs1 ++ c :: cs2 →
      readErrOf uwe q c = some e → isKnownCounterDataError e = true →
      gatherComputerCounters uwe q host
        = gatherComputerCounters uwe q ⟨host.computer, host.tag, cs1 ++ cs2⟩) ∧
    (∀ (uwe : Bool) (q : QueryReads) (host : hostCountersInfo)
      (c : counter) (cs1 cs2 : List counter) (e : GErr),
      host.counters = cs1 ++ c :: cs2 →
      (∀ c2 ∈ cs1, readErrOf uwe q c2 = none) →
      readErrOf uwe q c = some e → isKnownCounterDataError e = false →
      gatherComputerCounters uwe q host = .error e) ∧
    (isKnownCounterDataError (.pdh ⟨pdhInvalidData⟩) = true ∧
     isKnownCounterDataError (.pdh ⟨pdhCalcNegativeDenominator⟩) = true ∧
     isKnownCounterDataError (.pdh ⟨pdhCalcNegativeValue⟩) = true ∧
     isKnownCounterDataError (.pdh ⟨pdhCstatusInvalidData⟩) = true ∧
     isKnownCounterDataError (.pdh ⟨pdhCstatusNoInstance⟩) = true ∧
     isKnownCounterDataError (.pdh ⟨pdhNoData⟩) = true) ∧
    (∀ msg, isKnownCounterDataError (.other msg) = false) := by
  refine ⟨?_, ?_, by decide, fun _ => rfl⟩
  · intro uwe q host c cs1 cs2 e hcs he hb
    rw [gatherComputerCounters, gatherComputerCounters, hcs]
    rw [gatherFrom_benign uwe q c e he hb cs1 cs2 []]
  · intro uwe q host c cs1 cs2 e hcs hok he hnb
    rw [gatherComputerCounters, hcs, gatherFrom_abort uwe q c e he hnb cs2 cs1 hok []]

/-- A concrete counter on handle 0 (non-raw). -/
def c8Counter0 : counter :=
  { counterPath := "\\O(a)\\C0".data, computer := [], objectName := "O".data,
    counter := "C0".data, inst := "a".data, measurement := "m".data,
    includeTotal := false, useRawValue := false, counterHandle := 0 }

/-- A concrete counter on handle 1 (non-raw). -/
def c8Counter1 : counter :=
  { counterPath := "\\O(b)\\C1".data, computer := [], objectName := "O".data,
    counter := "C1".data, inst := "b".data, measurement := "m".data,
    includeTotal := false, useRawValue := false, counterHandle := 1 }

/-- Reads where handle 0 fails with the benign no-data error. -/
def c8ReadsBenign : QueryReads :=
  { rawValue := fun _ => .ok 0, fmtValue := fun _ => .ok 0,
    rawArray := fun _ => .ok [],
    fmtArray := fun h => if h = 0 then .error (.pdh ⟨pdhNoData⟩) else .ok [⟨"b".data, 5⟩] }

/-- Reads where handle 0 fails with a non-PDH error. -/
def c8ReadsFatal : QueryReads :=
  { c8ReadsBenign with fmtArray := fun h =>
      if h = 0 then .error (.other "boom".data) else .ok [⟨"b".data, 5⟩] }

/-- The two-counter host for the C8 witness. -/
def c8Host : hostCountersInfo := ⟨"h".data, "h".data, [c8Counter0, c8Counter1]⟩

/-- Witness for C8: the benign no-data failure of counter 0 leaves the pass
equal to the pass over counter 1 alone, while a non-benign failure aborts
the host's pass. -/
theorem c8_witness :
    gatherComputerCounters false c8ReadsBenign c8Host
      = gatherComputerCounters false c8ReadsBenign ⟨"h".data, "h".data, [c8Counter1]⟩ ∧
    gatherComputerCounters false c8ReadsFatal c8Host = .error (.other "boom".data) :=
  ⟨c8_benign_read_errors.1 false c8ReadsBenign c8Host c8Counter0 [] [c8Counter1]
      (.pdh ⟨pdhNoData⟩) rfl rfl (by decide),
   c8_benign_read_errors.2.1 false c8ReadsFatal c8Host c8Counter0 [] [c8Counter1]
      (.other "boom".data) rfl (by simp) rfl rfl⟩

/-!
## Claim C4: per-host isolation of native failures within one tick
-/

/-- Reads that always succeed, for the C4 instances. -/
def c4ReadsOk : QueryReads :=
  { rawValue := fun _ => .ok 1, fmtValue := fun _ => .ok 1,
    rawArray := fun _ => .ok [⟨"b".data, 1⟩], fmtArray := fun _ => .ok [⟨"b".data, 1⟩] }

/-- The record host B emits for its healthy counter in the C4 instances. -/
def c4RecordFor (src : Str) : Record :=
  { name := "m".data, fields := [("C1".data, 1)],
    tags := [("objectname".data, "O".data), ("instance".data, "b".data), ("source".data, src)] }

/-- Two hosts, the second with one healthy counter. -/
def c4HostA : hostCountersInfo := ⟨"A".data, "A".data, []⟩

/-- The second C4 host. -/
def c4HostB : hostCountersInfo := ⟨"B".data, "B".data, [c8Counter1]⟩

/-- Host A's `collectData` fails with a native error; host B's succeeds. -/
def c4Collect : Str → Except GErr Unit :=
  fun h => if h = "A".data then .error (.pdh ⟨42⟩) else .ok ()

/-- Counterexample to claim C4 as stated: a native `collectData` failure on
host A during the sample phase aborts the whole sampling tick — host B's
counters are never read and no record of host B is emitted in that tick,
even though all of host B's own native calls succeed. -/
theorem c4_counterexample :
    sampleTick false false (fun _ => false) c4Collect c4Collect (fun _ => c4ReadsOk)
        [c4HostA, c4HostB]
      = .error (.pdh ⟨42⟩) ∧
    c4Collect "B".data = .ok () ∧
    gatherComputerCounters false c4ReadsOk c4HostB = .ok [c4RecordFor "B".data] := by
  refine ⟨rfl, rfl, ?_⟩
  rfl

/-- Claim C4 (amended): once the sequential per-host collect loop of the
sample phase has succeeded for every host, the concurrent per-host gather
passes are isolated — the tick always completes, each host's entry is
computed from that host's own counters and reads alone, and a non-benign
error in one host's pass only turns that host's entry into `none`, never
affecting the other hosts' emitted records.  (A `collectData` failure in
the sequential loop, by contrast, aborts the whole tick.) -/
theorem c4_read_phase_isolation (upt uwe : Bool) (isV : Str → Bool)
    (cd cdt : Str → Except GErr Unit) (reads : Str → QueryReads)
    (hosts : List hostCountersInfo)
    (hcollect : ∀ h ∈ hosts,
      (if upt ∧ isV h.computer then cdt h.computer else cd h.computer) = .ok ()) :
    sampleTick upt uwe isV cd cdt reads hosts =
      .ok (hosts.map fun h =>
        (h.computer,
          match gatherComputerCounters uwe (reads h.computer) h with
          | .error _ => none
          | .ok records => some records)) := by
  have hphase : collectPhase upt isV cd cdt hosts = .ok () := by
    induction hosts with
    | nil => rfl
    | cons h rest ih =>
      rw [collectPhase, hcollect h (List.mem_cons_self _ _)]
      exact ih (fun x hx => hcollect x (List.mem_cons_of_mem _ hx))
  rw [sampleTick, hphase]

/-- Witness for C4 (amended): with both collects succeeding and host B's
gather failing on a non-benign error, host A still emits its records. -/
theorem c4_witness :
    sampleTick false false (fun _ => false) (fun _ => .ok ()) (fun _ => .ok ())
        (fun h => if h = "A".data then c4ReadsOk else c8ReadsFatal)
        [⟨"A".data, "A".data, [c8Counter1]⟩, ⟨"B".data, "B".data, [c8Counter0]⟩]
      = .ok [("A".data, some [c4RecordFor "A".data]), ("B".data, none)] := by
  rw [c4_read_phase_isolation false false (fun _ => false) (fun _ => .ok ()) (fun _ => .ok ())
    (fun h => if h = "A".data then c4ReadsOk else c8ReadsFatal)
    [⟨"A".data, "A".data, [c8Counter1]⟩, ⟨"B".data, "B".data, [c8Counter0]⟩]
    (by intro h hh; simp)]
  rfl

/-!
## Claims C2 and C3: the bounded buffer-growth retry protocol
-/

theorem bufLoop_head (f : Nat → PdhResp) (maxB fuel k b : Nat) (hb : b ≤ maxB) :
    ((bufLoop f maxB (fuel + 1) k b).1).head? = some b := by
  rw [bufLoop, if_neg (by omega)]
  cases f k <;> by_cases hz : b = 0 <;> simp [hz]

/-- The response sequence of the C2 counterexample: "more data, 5000 bytes
required", then success. -/
def c2Resp : Nat → PdhResp := fun k => if k = 0 then .moreData 5000 else .success

/-- Counterexample to claim C2 as stated: at buffer 1024 the API reports a
required size of 5000 (larger than the next doubling step 2048), yet the
next attempt allocates 10000 bytes — twice the reported size — because the
loop's `buflen *= 2` post-statement runs after the `buflen = size` jump. -/
theorem c2_counterexample :
    (bufLoop c2Resp 104857600 32 0 initialBufferSize).1 = [1024, 10000] ∧
    (10000 : Nat) ≠ 5000 := by
  exact ⟨rfl, by omega⟩

/-- Claim C2 (amended): when the native API answers "more data" and reports
a required size `s` larger than the current buffer, the very next attempt
(when one happens, i.e. `2*s` is still within the maximum) uses a buffer of
exactly `2*s` — twice the reported size: the jump to the reported size is
followed by the loop's doubling post-statement. -/
theorem c2_jump_then_double (f : Nat → PdhResp) (maxB fuel k b s : Nat)
    (hb0 : 0 < b) (hb : b ≤ maxB) (hmd : f k = .moreData s) (hs : b < s)
    (h2 : 2 * s ≤ maxB) (hm : maxB < u32) :
    (bufLoop f maxB (fuel + 2) k b).1.head? = some b ∧
    (bufLoop f maxB (fuel + 2) k b).1.tail.head? = some (2 * s) := by
  rw [show fuel + 2 = (fuel + 1) + 1 by omega, bufLoop, if_neg (by omega), hmd]
  have hnz : ¬(b = 0) := by omega
  have hjump : (if s > b then s else b) = s := by rw [if_pos hs]
  have hmod : 2 * (if s > b then s else b) % u32 = 2 * s := by
    rw [hjump, Nat.mod_eq_of_lt (by omega)]
  simp only [hnz, if_false, hmod]
  refine ⟨rfl, ?_⟩
  simpa using bufLoop_head f maxB fuel (k + 1) (2 * s) (by omega)

/-- Witness for C2 (amended) at the concrete response sequence. -/
theorem c2_witness :
    (bufLoop c2Resp 104857600 (30 + 2) 0 initialBufferSize).1.head? = some 1024 ∧
    (bufLoop c2Resp 104857600 (30 + 2) 0 initialBufferSize).1.tail.head? = some 10000 :=
  c2_jump_then_double c2Resp 104857600 30 0 1024 5000 (by omega) (by omega) rfl
    (by omega) (by omega) (by norm_num [u32])

/-- The adversarial response sequence of the C3 counterexample: every call
reports "more data" with a required size of 2^31 + 512 bytes. -/
def c3AdvResp : Nat → PdhResp := fun _ => .moreData 2147484160

/-- The loop never exits on this input, for any number of steps: after the
jump to 2^31 + 512 the uint32 doubling wraps back to 1024. -/
def bufLoopDiverges (f : Nat → PdhResp) (maxB : Nat) : Prop :=
  ∀ fuel k, (bufLoop f maxB fuel k initialBufferSize).2 = .outOfFuel

/-- Counterexample to claim C3 as stated: under the default 100 MB maximum,
the adversarial "more data" responses reporting 2^31 + 512 bytes make the
loop revisit buffer size 1024 forever — `buflen = size` followed by the
`uint32` post-statement `buflen *= 2` wraps modulo 2^32 back to 1024 — so
the loop neither terminates with success nor returns the "buffer limit
reached" error. -/
theorem c3_counterexample : bufLoopDiverges c3AdvResp 104857600 := by
  intro fuel
  induction fuel with
  | zero =>
    intro k
    rw [bufLoop, if_neg (by norm_num [initialBufferSize])]
  | succ n ih =>
    intro k
    rw [bufLoop, if_neg (by norm_num [initialBufferSize])]
    have h1 : c3AdvResp k = .moreData 2147484160 := rfl
    rw [h1]
    have h2 : ¬(initialBufferSize = 0) := by norm_num [initialBufferSize]
    have h3 : 2 * (if 2147484160 > initialBufferSize then 2147484160
        else initialBufferSize) % u32 = initialBufferSize := by
      norm_num [initialBufferSize, u32]
    simp only [h2, if_false, h3]
    exact ih (k + 1)

theorem bufLoop_bounded (f : Nat → PdhResp) (maxB : Nat)
    (hmax : maxB < 2147483648)
    (hsz : ∀ k s, f k = .moreData s → s < 2147483648) :
    ∀ fuel k b, maxB < b * 2 ^ fuel →
      ((bufLoop f maxB fuel k b).2 ≠ .outOfFuel ∧
       (bufLoop f maxB fuel k b).2 ≠ .panicked) ∧
      (∀ x ∈ (bufLoop f maxB fuel k b).1, x ≤ maxB) ∧
      ((∀ j, ∃ s, f j = .moreData s) → (bufLoop f maxB fuel k b).2 = .bufferLimit) := by
  intro fuel
  induction fuel with
  | zero =>
    intro k b hgt
    rw [bufLoop, if_pos (by omega)]
    refine ⟨⟨by simp, by simp⟩, by simp, fun _ => rfl⟩
  | succ n ih =>
    intro k b hgt
    by_cases hb : b > maxB
    · rw [bufLoop, if_pos hb]
      refine ⟨⟨by simp, by simp⟩, by simp, fun _ => rfl⟩
    · have hbpos : 0 < b := by
        rcases Nat.eq_zero_or_pos b with h0 | h0
        · rw [h0] at hgt; omega
        · exact h0
      rw [bufLoop, if_neg hb]
      have hnz : ¬(b = 0) := by omega
      cases hf : f k with
      | success =>
        simp only [hnz, if_false]
        refine ⟨⟨by simp, by simp⟩, by intro x hx; simp at hx; omega, ?_⟩
        intro hmd
        obtain ⟨s, hks⟩ := hmd k
        rw [hf] at hks
        exact absurd hks (by simp)
      | failure code size =>
        simp only [hnz, if_false]
        refine ⟨⟨by simp, by simp⟩, by intro x hx; simp at hx; omega, ?_⟩
        intro hmd
        obtain ⟨s, hks⟩ := hmd k
        rw [hf] at hks
        exact absurd hks (by simp)
      | moreData size =>
        simp only [hnz, if_false]
        have hslt : size < 2147483648 := hsz k size hf
        have hb1lt : (if size > b then size else b) < 2147483648 := by split <;> omega
        have hmod : 2 * (if size > b then size else b) % u32
            = 2 * (if size > b then size else b) :=
          Nat.mod_eq_of_lt (by unfold u32; omega)
        have hge : b ≤ (if size > b then size else b) := by split <;> omega
        have hnext : maxB < (2 * (if size > b then size else b) % u32) * 2 ^ n := by
          rw [hmod]
          calc maxB < b * 2 ^ (n + 1) := hgt
          _ = (2 * b) * 2 ^ n := by ring
          _ ≤ (2 * (if size > b then size else b)) * 2 ^ n := by
              apply Nat.mul_le_mul_right
              omega
        obtain ⟨⟨ih1, ih2⟩, ih3, ih4⟩ := ih (k + 1) (2 * (if size > b then size else b) % u32) hnext
        refine ⟨⟨by simpa using ih1, by simpa using ih2⟩, ?_, fun hmd => by simpa using ih4 hmd⟩
        intro x hx
        simp only [List.mem_cons] at hx
        rcases hx with hx | hx
        · omega
        · exact ih3 x hx

/-- Claim C3 (amended): provided the uint32 doubling cannot wrap — the
configured maximum and every reported required size stay below 2^31 — the
retry loop terminates within 32 iterations for every response sequence
(and never reaches the zero-size allocation panic); it starts from the
initial 1024-byte buffer, every buffer it allocates is at most the
configured maximum, and when the responses never report success the loop
stops with the dedicated "buffer limit reached" outcome instead of growing
further.  (Without the no-wrap bound the loop can run forever; see the
counterexample.) -/
theorem c3_bounded_growth (f : Nat → PdhResp) (maxB : Nat)
    (hmax : maxB < 2147483648) (hinit : 1024 ≤ maxB)
    (hsz : ∀ k s, f k = .moreData s → s < 2147483648) :
    ((bufLoop f maxB 32 0 initialBufferSize).2 ≠ .outOfFuel ∧
     (bufLoop f maxB 32 0 initialBufferSize).2 ≠ .panicked) ∧
    (∀ x ∈ (bufLoop f maxB 32 0 initialBufferSize).1, x ≤ maxB) ∧
    ((bufLoop f maxB 32 0 initialBufferSize).1.head? = some initialBufferSize) ∧
    ((∀ j, ∃ s, f j = .moreData s) →
      (bufLoop f maxB 32 0 initialBufferSize).2 = .bufferLimit) := by
  have hgt : maxB < initialBufferSize * 2 ^ 32 := by
    unfold initialBufferSize
    omega
  obtain ⟨h1, h2, h3⟩ := bufLoop_bounded f maxB hmax hsz 32 0 initialBufferSize hgt
  exact ⟨h1, h2,
    bufLoop_head f maxB 31 0 initialBufferSize (by unfold initialBufferSize; omega), h3⟩

/-- Witness for C3 (amended): pure doubling under never-ending "more data"
responses reaches the bound and stops with the buffer-limit outcome. -/
theorem c3_witness :
    (bufLoop (fun _ => .moreData 0) 104857600 32 0 initialBufferSize).2
      = .bufferLimit ∧
    (bufLoop (fun _ => .moreData 0) 104857600 32 0 initialBufferSize).1.head?
      = some initialBufferSize :=
  ⟨(c3_bounded_growth (fun _ => .moreData 0) 104857600 (by omega) (by omega)
      (fun k s h => by injection h with h2; omega)).2.2.2 (fun j => ⟨0, rfl⟩),
   (c3_bounded_growth (fun _ => .moreData 0) 104857600 (by omega) (by omega)
      (fun k s h => by injection h with h2; omega)).2.2.1⟩

/-!
## Claim C1: the parse/format round trip
-/

theorem scanStep_plain {c : Char} (h1 : c ≠ '\\') (h2 : c ≠ '(') (h3 : c ≠ ')')
    (s : ScanState) (i : Nat) : scanStep s i c = s := by
  simp [scanStep, h1, h2, h3]

theorem scanR_plain {xs : Str} (h : noReserved xs) (off : Nat) (s : ScanState) :
    scanR xs off s = s := by
  induction xs generalizing off with
  | nil => rfl
  | cons c t ih =>
    obtain ⟨h1, h2, h3⟩ := h c (List.mem_cons_self _ _)
    rw [scanR, ih (fun x hx => h x (List.mem_cons_of_mem _ hx)) (off + 1),
      scanStep_plain h1 h2 h3]

theorem scanR_append (xs ys : Str) (off : Nat) (s : ScanState) :
    scanR (xs ++ ys) off s = scanR xs off (scanR ys (off + xs.length) s) := by
  induction xs generalizing off with
  | nil => simp [scanR]
  | cons c t ih =>
    rw [List.cons_append, scanR, ih (off + 1), scanR]
    have harith : off + 1 + t.length = off + (c :: t).length := by
      simp
      omega
    rw [harith]

theorem char_lparen_ne_bs : ('(' : Char) ≠ '\\' := by decide

theorem char_rparen_ne_bs : (')' : Char) ≠ '\\' := by decide

theorem char_rparen_ne_lparen : (')' : Char) ≠ '(' := by decide

theorem scanStep_bs_setCounter (n : Nat) :
    scanStep initScan n '\\' = ⟨-1, -1, -1, (n : Int), -1, -1, 0⟩ := by
  simp [scanStep, initScan]

theorem scanStep_rparen (m n : Nat) :
    scanStep ⟨-1, -1, -1, (m : Int), -1, -1, 0⟩ n ')'
      = ⟨-1, -1, -1, (m : Int), (n : Int), -1, 1⟩ := by
  simp [scanStep, char_rparen_ne_bs, char_rparen_ne_lparen, natCast_gt_negOne]

theorem scanStep_lparen (m r n : Nat) :
    scanStep ⟨-1, -1, -1, (m : Int), (r : Int), -1, 1⟩ n '('
      = ⟨-1, (n : Int), -1, (m : Int), (r : Int), (n : Int), 0⟩ := by
  simp [scanStep, char_lparen_ne_bs, natCast_gt_negOne]

theorem scanStep_bs_setObject (ro ri li : Int) (m n : Nat) :
    scanStep ⟨-1, ro, -1, (m : Int), ri, li, 0⟩ n '\\'
      = ⟨-1, ro, (n : Int), (m : Int), ri, li, 0⟩ := by
  simp [scanStep, natCast_ne_negOne]

theorem scanStep_bs_setComputer (ro ri li : Int) (ob m n : Nat) :
    scanStep ⟨-1, ro, (ob : Int), (m : Int), ri, li, 0⟩ n '\\'
      = ⟨(n : Int), ro, (ob : Int), (m : Int), ri, li, 0⟩ := by
  simp [scanStep, natCast_ne_negOne]

theorem scanStep_bs_noop (a : Nat) (ro ri li : Int) (ob m n : Nat) :
    scanStep ⟨(a : Int), ro, (ob : Int), (m : Int), ri, li, 0⟩ n '\\'
      = ⟨(a : Int), ro, (ob : Int), (m : Int), ri, li, 0⟩ := by
  simp [scanStep, natCast_ne_negOne]

/-- Scanning `\object(instance)\counter` starting at index `off`. -/
theorem scanShapeInst (o i c : Str) (off : Nat) (ho : noReserved o) (hi : noReserved i)
    (hc : noReserved c) :
    scanR (['\\'] ++ o ++ ['('] ++ i ++ [')'] ++ ['\\'] ++ c) off initScan =
      ⟨-1, ((off + o.length + 1 : Nat) : Int), ((off : Nat) : Int),
       ((off + o.length + i.length + 3 : Nat) : Int),
       ((off + o.length + i.length + 2 : Nat) : Int),
       ((off + o.length + 1 : Nat) : Int), 0⟩ := by
  rw [scanR_append, scanR_append, scanR_append, scanR_append, scanR_append, scanR_append,
    scanR_plain hc, scanR_plain hi, scanR_plain ho]
  simp only [scanR, List.length_singleton, List.length_append]
  rw [scanStep_bs_setCounter, scanStep_rparen, scanStep_lparen, scanStep_bs_setObject]
  simp only [ScanState.mk.injEq]
  refine ⟨?_, ?_, ?_, ?_, ?_, ?_, ?_⟩ <;> first | trivial | omega

/-- Scanning `\object\counter` (sentinel instance) starting at index `off`. -/
theorem scanShapeNoInst (o c : Str) (off : Nat) (ho : noReserved o) (hc : noReserved c) :
    scanR (['\\'] ++ o ++ ['\\'] ++ c) off initScan =
      ⟨-1, -1, ((off : Nat) : Int), ((off + o.length + 1 : Nat) : Int), -1, -1, 0⟩ := by
  rw [scanR_append, scanR_append, scanR_append, scanR_plain hc, scanR_plain ho]
  simp only [scanR, List.length_singleton, List.length_append]
  rw [scanStep_bs_setCounter, scanStep_bs_setObject]
  simp only [ScanState.mk.injEq]
  refine ⟨?_, ?_, ?_, ?_, ?_, ?_, ?_⟩ <;> first | trivial | omega

/-- Scanning `\\host\object(instance)\counter`. -/
theorem scanShapeHostInst (h o i c : Str) (hh : noReserved h) (ho : noReserved o)
    (hi : noReserved i) (hc : noReserved c) :
    scanR (['\\', '\\'] ++ h ++ (['\\'] ++ o ++ ['('] ++ i ++ [')'] ++ ['\\'] ++ c)) 0
        initScan =
      ⟨1, ((h.length + o.length + 3 : Nat) : Int), ((h.length + 2 : Nat) : Int),
       ((h.length + o.length + i.length + 5 : Nat) : Int),
       ((h.length + o.length + i.length + 4 : Nat) : Int),
       ((h.length + o.length + 3 : Nat) : Int), 0⟩ := by
  rw [scanR_append, scanShapeInst o i c _ ho hi hc, scanR_append, scanR_plain hh]
  simp only [scanR, List.length_singleton, List.length_append, List.length_cons,
    List.length_nil]
  rw [scanStep_bs_setComputer, scanStep_bs_noop]
  simp only [ScanState.mk.injEq]
  refine ⟨?_, ?_, ?_, ?_, ?_, ?_, ?_⟩ <;> first | trivial | omega

/-- Scanning `\\host\object\counter` (sentinel instance). -/
theorem scanShapeHostNoInst (h o c : Str) (hh : noReserved h) (ho : noReserved o)
    (hc : noReserved c) :
    scanR (['\\', '\\'] ++ h ++ (['\\'] ++ o ++ ['\\'] ++ c)) 0 initScan =
      ⟨1, -1, ((h.length + 2 : Nat) : Int),
       ((h.length + o.length + 3 : Nat) : Int), -1, -1, 0⟩ := by
  rw [scanR_append, scanShapeNoInst o c _ ho hc, scanR_append, scanR_plain hh]
  simp only [scanR, List.length_singleton, List.length_append, List.length_cons,
    List.length_nil]
  rw [scanStep_bs_setComputer, scanStep_bs_noop]
  simp only [ScanState.mk.injEq]
  refine ⟨?_, ?_, ?_, ?_, ?_, ?_, ?_⟩ <;> first | trivial | omega

theorem scanProj1 (a b c d e f g : Int) :
    (⟨a, b, c, d, e, f, g⟩ : ScanState).leftComputerBorderIndex = a := rfl

theorem scanProj2 (a b c d e f g : Int) :
    (⟨a, b, c, d, e, f, g⟩ : ScanState).rightObjectBorderIndex = b := rfl

theorem scanProj3 (a b c d e f g : Int) :
    (⟨a, b, c, d, e, f, g⟩ : ScanState).leftObjectBorderIndex = c := rfl

theorem scanProj4 (a b c d e f g : Int) :
    (⟨a, b, c, d, e, f, g⟩ : ScanState).leftCounterBorderIndex = d := rfl

theorem scanProj5 (a b c d e f g : Int) :
    (⟨a, b, c, d, e, f, g⟩ : ScanState).rightInstanceBorderIndex = e := rfl

theorem scanProj6 (a b c d e f g : Int) :
    (⟨a, b, c, d, e, f, g⟩ : ScanState).leftInstanceBorderIndex = f := rfl

theorem scanProj7 (a b c d e f g : Int) :
    (⟨a, b, c, d, e, f, g⟩ : ScanState).bracketLevel = g := rfl

theorem sliceI_middle (cs pre mid post : Str) (a b : Int)
    (hcs : cs = pre ++ (mid ++ post))
    (ha : a.toNat = pre.length) (hb : (b - a).toNat = mid.length) :
    sliceI cs a b = mid := by
  subst hcs
  rw [sliceI, ha, hb, List.drop_left' rfl, List.take_left' rfl]

theorem dropN_suffix (cs pre post : Str) (n : Nat)
    (hcs : cs = pre ++ post) (hn : n = pre.length) :
    cs.drop n = post := by
  subst hcs
  exact List.drop_left' hn.symm

/-- Parsing `\object(instance)\counter`. -/
theorem extractShapeInst (o i c : Str) (ho : noReserved o) (hi : noReserved i)
    (hc : noReserved c) :
    extractCounterInfoFromCounterPath (['\\'] ++ o ++ ['('] ++ i ++ [')'] ++ ['\\'] ++ c)
      = .ok ([], o, i, c) := by
  rw [extractCounterInfoFromCounterPath, scanShapeInst o i c 0 ho hi hc]
  dsimp only
  rw [if_neg (show ¬(((0 + o.length + 1 : Nat) : Int) = -1) by omega)]
  simp only [scanProj1, scanProj2, scanProj3, scanProj4, scanProj5, scanProj6, scanProj7]
  split_ifs <;> try (exfalso; first | omega | tauto)
  simp only [Except.ok.injEq, Prod.mk.injEq]
  refine ⟨trivial, ?_, ?_, ?_⟩
  · exact sliceI_middle _ ['\\'] o (['('] ++ i ++ [')'] ++ ['\\'] ++ c) _ _
      (by simp) (by simp only [List.length_singleton]; omega) (by omega)
  · exact sliceI_middle _ (['\\'] ++ o ++ ['(']) i ([')'] ++ ['\\'] ++ c) _ _
      (by simp)
      (by simp only [List.length_append, List.length_singleton]; omega) (by omega)
  · exact dropN_suffix _ (['\\'] ++ o ++ ['('] ++ i ++ [')'] ++ ['\\']) c _
      rfl (by simp only [List.length_append, List.length_singleton]; omega)

/-- Parsing `\object\counter` (no instance parenthetical): the instance
comes back empty. -/
theorem extractShapeNoInst (o c : Str) (ho : noReserved o) (hc : noReserved c) :
    extractCounterInfoFromCounterPath (['\\'] ++ o ++ ['\\'] ++ c)
      = .ok ([], o, [], c) := by
  rw [extractCounterInfoFromCounterPath, scanShapeNoInst o c 0 ho hc]
  dsimp only
  rw [if_pos (show ((-1 : Int) = -1) from rfl)]
  simp only [scanProj1, scanProj2, scanProj3, scanProj4, scanProj5, scanProj6, scanProj7]
  split_ifs <;> try (exfalso; first | omega | tauto)
  simp only [Except.ok.injEq, Prod.mk.injEq]
  refine ⟨trivial, ?_, trivial, ?_⟩
  · exact sliceI_middle _ ['\\'] o (['\\'] ++ c) _ _
      (by simp) (by simp only [List.length_singleton]; omega) (by omega)
  · exact dropN_suffix _ (['\\'] ++ o ++ ['\\']) c _
      rfl (by simp only [List.length_append, List.length_singleton]; omega)

/-- Parsing `\\host\object(instance)\counter`. -/
theorem extractShapeHostInst (h o i c : Str) (hne : h ≠ []) (hh : noReserved h)
    (ho : noReserved o) (hi : noReserved i) (hc : noReserved c) :
    extractCounterInfoFromCounterPath
        (['\\', '\\'] ++ h ++ (['\\'] ++ o ++ ['('] ++ i ++ [')'] ++ ['\\'] ++ c))
      = .ok (h, o, i, c) := by
  have hlen : 0 < h.length := List.length_pos.mpr hne
  rw [extractCounterInfoFromCounterPath, scanShapeHostInst h o i c hh ho hi hc]
  dsimp only
  rw [if_neg (show ¬(((h.length + o.length + 3 : Nat) : Int) = -1) by omega)]
  simp only [scanProj1, scanProj2, scanProj3, scanProj4, scanProj5, scanProj6, scanProj7]
  split_ifs <;> try (exfalso; first | omega | tauto)
  simp only [Except.ok.injEq, Prod.mk.injEq]
  refine ⟨?_, ?_, ?_, ?_⟩
  · exact sliceI_middle _ ['\\', '\\'] h
      (['\\'] ++ o ++ ['('] ++ i ++ [')'] ++ ['\\'] ++ c) _ _
      (by simp) (by simp only [List.length_cons, List.length_singleton, List.length_nil]; omega) (by omega)
  · exact sliceI_middle _ (['\\', '\\'] ++ h ++ ['\\']) o
      (['('] ++ i ++ [')'] ++ ['\\'] ++ c) _ _
      (by simp)
      (by simp only [List.length_append, List.length_cons, List.length_singleton,
        List.length_nil]; omega)
      (by omega)
  · exact sliceI_middle _ (['\\', '\\'] ++ h ++ ['\\'] ++ o ++ ['(']) i
      ([')'] ++ ['\\'] ++ c) _ _
      (by simp)
      (by simp only [List.length_append, List.length_cons, List.length_singleton,
        List.length_nil]; omega)
      (by omega)
  · exact dropN_suffix _ (['\\', '\\'] ++ h ++ ['\\'] ++ o ++ ['('] ++ i ++ [')'] ++ ['\\']) c _
      (by simp)
      (by simp only [List.length_append, List.length_cons, List.length_singleton,
        List.length_nil]; omega)

/-- Parsing `\\host\object\counter` (no instance parenthetical). -/
theorem extractShapeHostNoInst (h o c : Str) (hne : h ≠ []) (hh : noReserved h)
    (ho : noReserved o) (hc : noReserved c) :
    extractCounterInfoFromCounterPath (['\\', '\\'] ++ h ++ (['\\'] ++ o ++ ['\\'] ++ c))
      = .ok (h, o, [], c) := by
  have hlen : 0 < h.length := List.length_pos.mpr hne
  rw [extractCounterInfoFromCounterPath, scanShapeHostNoInst h o c hh ho hc]
  dsimp only
  rw [if_pos (show ((-1 : Int) = -1) from rfl)]
  simp only [scanProj1, scanProj2, scanProj3, scanProj4, scanProj5, scanProj6, scanProj7]
  split_ifs <;> try (exfalso; first | omega | tauto)
  simp only [Except.ok.injEq, Prod.mk.injEq]
  refine ⟨?_, ?_, trivial, ?_⟩
  · exact sliceI_middle _ ['\\', '\\'] h (['\\'] ++ o ++ ['\\'] ++ c) _ _
      (by simp) (by simp only [List.length_cons, List.length_singleton, List.length_nil]; omega) (by omega)
  · exact sliceI_middle _ (['\\', '\\'] ++ h ++ ['\\']) o (['\\'] ++ c) _ _
      (by simp)
      (by simp only [List.length_append, List.length_cons, List.length_singleton,
        List.length_nil]; omega)
      (by omega)
  · exact dropN_suffix _ (['\\', '\\'] ++ h ++ ['\\'] ++ o ++ ['\\']) c _
      (by simp)
      (by simp only [List.length_append, List.length_cons, List.length_singleton,
        List.length_nil]; omega)

/-- Counterexample to claim C1 as stated: the round trip is not the
identity at the six-dash sentinel (parsing yields the empty instance, not
the sentinel) nor at the local-host alias (parsing yields the empty host,
not "localhost"). -/
theorem c1_counterexample :
    extractCounterInfoFromCounterPath (formatPath [] "O".data emptyInstance "C".data)
      = .ok ([], "O".data, [], "C".data) ∧
    ([] : Str) ≠ emptyInstance ∧
    extractCounterInfoFromCounterPath
        (formatPath "localhost".data "O".data "I".data "C".data)
      = .ok ([], "O".data, "I".data, "C".data) ∧
    ([] : Str) ≠ "localhost".data :=
  ⟨rfl, by decide, rfl, by decide⟩

/-- Claim C1 (amended): for host, object, instance and counter strings free
of the grammar's reserved characters (`\`, `(`, `)`), parsing the formatted
path returns the object and counter unchanged, returns the instance
unchanged except that the six-dash sentinel (whose parenthetical `format`
omits) parses back as the empty instance, and returns the host unchanged
except that the empty host and the local-host alias (whose `\\host` prefix
`format` omits) parse back as the empty host — all with no error. -/
theorem c1_roundtrip (h o i c : Str) (hh : noReserved h) (ho : noReserved o)
    (hi : noReserved i) (hc : noReserved c) :
    extractCounterInfoFromCounterPath (formatPath h o i c) =
      .ok (if h = [] ∨ h = localhostStr then [] else h, o,
           if i = emptyInstance then [] else i, c) := by
  rw [formatPath]
  by_cases hhost : h ≠ [] ∧ h ≠ localhostStr
  · have hne : h ≠ [] := hhost.1
    rw [if_pos hhost, if_neg (show ¬(h = [] ∨ h = localhostStr) by tauto)]
    by_cases hinst : i = emptyInstance
    · rw [if_pos hinst, if_pos hinst, extractShapeHostNoInst h o c hne hh ho hc]
    · rw [if_neg hinst, if_neg hinst, extractShapeHostInst h o i c hne hh ho hi hc]
  · rw [if_neg hhost, if_pos (show h = [] ∨ h = localhostStr by tauto)]
    by_cases hinst : i = emptyInstance
    · rw [if_pos hinst, if_pos hinst, extractShapeNoInst o c ho hc]
    · rw [if_neg hinst, if_neg hinst, extractShapeInst o i c ho hi hc]

/-- Witness for C1 (amended) at concrete strings covering both the
identity case and the sentinel case. -/
theorem c1_witness :
    extractCounterInfoFromCounterPath
        (formatPath "srv1".data "Processor".data "core 0".data "% Idle Time".data)
      = .ok (if "srv1".data = ([] : Str) ∨ "srv1".data = localhostStr then []
               else "srv1".data,
             "Processor".data,
             if "core 0".data = emptyInstance then [] else "core 0".data,
             "% Idle Time".data) ∧
    extractCounterInfoFromCounterPath
        (formatPath [] "Memory".data emptyInstance "Available Bytes".data)
      = .ok (if ([] : Str) = ([] : Str) ∨ ([] : Str) = localhostStr then [] else [],
             "Memory".data,
             if emptyInstance = emptyInstance then [] else emptyInstance,
             "Available Bytes".data) :=
  ⟨c1_roundtrip "srv1".data "Processor".data "core 0".data "% Idle Time".data
     (by decide) (by decide) (by decide) (by decide),
   c1_roundtrip [] "Memory".data emptyInstance "Available Bytes".data
     (by decide) (by decide) (by decide) (by decide)⟩

end WinPerfCounters
